import Mathlib

/-!
Shallow embedding of the gfop food-count / food-flow pipeline
(`src/gfop/foodcounts.py`, `src/gfop/foodflows.py`, `src/gfop/utils.py`).
Tables are lists of records; pandas boolean-mask filters become `List.filter`,
`explode` becomes `List.flatMap`, inner merges become nested binds, `groupby/size`
becomes `countP`, and `unstack`/`pivot_table` with `fill_value=0` followed by
`melt` becomes enumeration of the cross product of the observed keys.
Raised `ValueError`s become `Except.error`.
-/

namespace Gfop

/-- One row of the GNPS network edge table: the cluster identifier,
`UniqueFileSources` already split on `"|"`, the raw `DefaultGroups` cell,
and the numeric group columns `G1`..`G6` (and possibly others), read through
a total function from column name to value. -/
structure NetworkRow where
  cluster : Nat
  files : List String
  defaultGroups : String
  g : String → Int

/-- The six possible group labels, from `groups = {f"G{i}" for i in range(1, 7)}`. -/
def allGroups : List String := ["G1", "G2", "G3", "G4", "G5", "G6"]

/-- `groups_excluded = list(groups - set([*sample_groups, *reference_groups]))`
in `FoodCounts._get_filename_level_food_counts`. -/
def groupsExcluded (sample_groups reference_groups : List String) : List String :=
  allGroups.filter (fun x => decide (¬(x ∈ sample_groups ∨ x ∈ reference_groups)))

/-- The boolean mask of `FoodCounts._get_filename_level_food_counts`:
`(df[sample_groups] > 0).all(axis=1) & (df[reference_groups] > 0).any(axis=1)
  & (df[groups_excluded] == 0).all(axis=1)`. -/
def rowSelected (sample_groups reference_groups : List String) (r : NetworkRow) : Bool :=
  sample_groups.all (fun x => decide (0 < r.g x)) &&
    reference_groups.any (fun x => decide (0 < r.g x)) &&
    (groupsExcluded sample_groups reference_groups).all (fun x => decide (r.g x = 0))

/-- `df_selected` of `FoodCounts._get_filename_level_food_counts`: the network
rows surviving the group-inclusion/exclusion mask. -/
def selectRows (net : List NetworkRow) (sample_groups reference_groups : List String) :
    List NetworkRow :=
  net.filter (rowSelected sample_groups reference_groups)

/-- pandas `drop_duplicates()` / `.unique()`: keep the first occurrence of each
element, dropping later duplicates, with a `seen` accumulator. -/
def pdDropDupAux {α : Type} [DecidableEq α] (seen : List α) : List α → List α
  | [] => []
  | a :: l => if a ∈ seen then pdDropDupAux seen l else a :: pdDropDupAux (a :: seen) l

/-- pandas `drop_duplicates()` / `.unique()` on a list of rows or values. -/
def pdDropDup {α : Type} [DecidableEq α] (l : List α) : List α :=
  pdDropDupAux [] l

theorem mem_pdDropDupAux {α : Type} [DecidableEq α] (seen : List α) (l : List α) (a : α) :
    a ∈ pdDropDupAux seen l ↔ a ∈ l ∧ a ∉ seen := by
  induction l generalizing seen with
  | nil => simp [pdDropDupAux]
  | cons b l ih =>
    by_cases hb : b ∈ seen
    · rw [show pdDropDupAux seen (b :: l) = pdDropDupAux seen l by
        simp [pdDropDupAux, if_pos hb], ih]
      constructor
      · rintro ⟨h1, h2⟩; exact ⟨List.mem_cons_of_mem _ h1, h2⟩
      · rintro ⟨h1, h2⟩
        rcases List.mem_cons.mp h1 with rfl | h1
        · exact absurd hb h2
        · exact ⟨h1, h2⟩
    · rw [show pdDropDupAux seen (b :: l) = b :: pdDropDupAux (b :: seen) l by
        simp [pdDropDupAux, if_neg hb]]
      simp only [List.mem_cons, ih]
      constructor
      · rintro (rfl | ⟨h1, h2⟩)
        · exact ⟨Or.inl rfl, hb⟩
        · exact ⟨Or.inr h1, fun hc => h2 (Or.inr hc)⟩
      · rintro ⟨rfl | h1, h2⟩
        · exact Or.inl rfl
        · by_cases hab : a = b
          · exact Or.inl hab
          · exact Or.inr ⟨h1, fun hc => hc.elim hab h2⟩

theorem mem_pdDropDup {α : Type} [DecidableEq α] (l : List α) (a : α) :
    a ∈ pdDropDup l ↔ a ∈ l := by
  simp [pdDropDup, mem_pdDropDupAux]

theorem pdDropDupAux_nodup {α : Type} [DecidableEq α] (seen : List α) (l : List α) :
    (pdDropDupAux seen l).Nodup := by
  induction l generalizing seen with
  | nil => simp [pdDropDupAux]
  | cons b l ih =>
    by_cases hb : b ∈ seen
    · rw [show pdDropDupAux seen (b :: l) = pdDropDupAux seen l by
        simp [pdDropDupAux, if_pos hb]]
      exact ih seen
    · rw [show pdDropDupAux seen (b :: l) = b :: pdDropDupAux (b :: seen) l by
        simp [pdDropDupAux, if_neg hb], List.nodup_cons]
      refine ⟨fun hmem => ?_, ih (b :: seen)⟩
      exact ((mem_pdDropDupAux _ _ _).mp hmem).2 (List.mem_cons_self _ _)

theorem pdDropDup_nodup {α : Type} [DecidableEq α] (l : List α) : (pdDropDup l).Nodup :=
  pdDropDupAux_nodup [] l

theorem pdDropDupAux_sublist {α : Type} [DecidableEq α] (seen : List α) (l : List α) :
    (pdDropDupAux seen l).Sublist l := by
  induction l generalizing seen with
  | nil => simp [pdDropDupAux]
  | cons b l ih =>
    by_cases hb : b ∈ seen
    · rw [show pdDropDupAux seen (b :: l) = pdDropDupAux seen l by
        simp [pdDropDupAux, if_pos hb]]
      exact (ih seen).cons b
    · rw [show pdDropDupAux seen (b :: l) = b :: pdDropDupAux (b :: seen) l by
        simp [pdDropDupAux, if_neg hb]]
      exact (ih (b :: seen)).cons₂ b

theorem pdDropDup_sublist {α : Type} [DecidableEq α] (l : List α) :
    (pdDropDup l).Sublist l :=
  pdDropDupAux_sublist [] l

/-- C1: Level-0 cluster selection. A network row is kept by the Level-0
Aggregator's selection exactly when it is a row of the network in which every
`sample_groups` column is strictly positive, at least one `reference_groups`
column is strictly positive, and every column of `{G1..G6}` minus
(`sample_groups` ∪ `reference_groups`) equals 0. -/
theorem level0_cluster_selection (net : List NetworkRow)
    (sample_groups reference_groups : List String) (r : NetworkRow) :
    r ∈ selectRows net sample_groups reference_groups ↔
      r ∈ net ∧ (∀ x ∈ sample_groups, 0 < r.g x) ∧ (∃ x ∈ reference_groups, 0 < r.g x) ∧
        (∀ x ∈ allGroups, x ∉ sample_groups → x ∉ reference_groups → r.g x = 0) := by
  unfold selectRows rowSelected groupsExcluded
  rw [List.mem_filter]
  simp only [Bool.and_eq_true, List.all_eq_true, List.any_eq_true, decide_eq_true_eq,
    List.mem_filter, not_or]
  constructor
  · rintro ⟨hmem, ⟨⟨hall, hany⟩, hexc⟩⟩
    exact ⟨hmem, hall, hany, fun x hx hxs hxr => hexc x ⟨hx, hxs, hxr⟩⟩
  · rintro ⟨hmem, hall, hany, hexc⟩
    exact ⟨hmem, ⟨⟨hall, hany⟩, fun x hx => hexc x hx.1 hx.2.1 hx.2.2⟩⟩

/-- One row of the Global FoodOmics ontology after `_load_sample_types`'s
column selection and `set_index("filename")`: the reference filename (the
index), the leaf `sample_name`, and the ancestor categories
`sample_type_group1..6` (list position `i` holds `sample_type_group{i+1}`). -/
structure OntRow where
  filename : String
  sample_name : String
  groups : List String
deriving DecidableEq

/-- Lookup of a reference filename in the ontology store (the pandas
`.map(self.sample_types["sample_name"])` / `.reindex` access, which requires a
unique index; here the first matching row). -/
def ontLookup (ont : List OntRow) (f : String) : Option OntRow :=
  ont.find? (fun o => o.filename == f)

/-- `FoodCounts._get_sample_metadata`: keep network rows whose `DefaultGroups`
has no comma and is one of `sample_groups`, explode `UniqueFileSources`, keep
(group, filename), drop duplicates. -/
def getSampleMetadata (net : List NetworkRow) (sample_groups : List String) :
    List (String × String) :=
  pdDropDup
    (((net.filter (fun r => !(r.defaultGroups.data.contains ','))).filter
        (fun r => decide (r.defaultGroups ∈ sample_groups))).flatMap
      (fun r => r.files.map (fun f => (r.defaultGroups, f))))

/-- `df_exploded[["filename", "cluster index"]]` of
`FoodCounts._get_filename_level_food_counts`: explode `UniqueFileSources`,
retaining the cluster identifier. -/
def explodedPairs (rows : List NetworkRow) : List (String × Nat) :=
  rows.flatMap (fun r => r.files.map (fun f => (f, r.cluster)))

/-- `merged_df` of `FoodCounts._get_filename_level_food_counts`: split the
exploded filenames into samples (members of the sample-metadata filename set)
and foods (the rest, resolved to their ontology `sample_name`, unresolved ones
dropped), then inner-join on the shared cluster identifier, producing one
(sample filename, reference leaf name) pair per matching cluster pairing. -/
def mergedPairs (net : List NetworkRow) (sample_groups reference_groups : List String)
    (ont : List OntRow) : List (String × String) :=
  let sampleFilenames := (getSampleMetadata net sample_groups).map Prod.snd
  let exploded := explodedPairs (selectRows net sample_groups reference_groups)
  let samples := exploded.filter (fun p => decide (p.1 ∈ sampleFilenames))
  let foods := (exploded.filter (fun p => decide (p.1 ∉ sampleFilenames))).filterMap
    (fun p => (ontLookup ont p.1).map (fun o => (o.sample_name, p.2)))
  samples.flatMap (fun s => foods.filterMap
    (fun fd => if fd.2 = s.2 then some (s.1, fd.1) else none))

/-- One row of the long-format food-count table
(`filename`, `food_type`, `count`, `level`). -/
structure CountRow where
  filename : String
  food_type : String
  count : Nat
  level : Nat
deriving DecidableEq

/-- One cell of `merged_df.groupby(["filename", "sample_name"]).size()`. -/
def pairCount (m : List (String × String)) (f food : String) : Nat :=
  m.countP (fun p => p.1 == f && p.2 == food)

/-- `FoodCounts._get_filename_level_food_counts`'s result: group the merged
pairs by (filename, sample_name) and count, `unstack(fill_value=0)` to a wide
matrix over observed filenames × observed leaf names, then `melt` back to long
form tagged `level = 0`.  The unstack/melt round trip materializes a row for
every (observed filename, observed leaf name) combination, zero-filled. -/
def level0Long (net : List NetworkRow) (sample_groups reference_groups : List String)
    (ont : List OntRow) : List CountRow :=
  let m := mergedPairs net sample_groups reference_groups ont
  let files := pdDropDup (m.map Prod.fst)
  let foods := pdDropDup (m.map Prod.snd)
  foods.flatMap (fun fd => files.map (fun f => ⟨f, fd, pairCount m f fd, 0⟩))

/-- Concrete network for the C3 counterexample: clusters 1 and 2 pass the
level-0 selection for `sample_groups = ["G1"]`, `reference_groups = ["G4"]`;
clusters 3 and 4 only provide the sample-metadata mapping for `sA` and `sB`. -/
def c3Net : List NetworkRow :=
  [⟨1, ["sA", "fX"], "G1,G4", fun x => if x = "G1" then 1 else if x = "G4" then 1 else 0⟩,
   ⟨2, ["sB", "fY"], "G1,G4", fun x => if x = "G1" then 1 else if x = "G4" then 1 else 0⟩,
   ⟨3, ["sA"], "G1", fun x => if x = "G1" then 1 else 0⟩,
   ⟨4, ["sB"], "G1", fun x => if x = "G1" then 1 else 0⟩]

/-- Concrete ontology for the C3 counterexample. -/
def c3Ont : List OntRow :=
  [⟨"fX", "X", ["cx", "cx", "cx", "cx", "cx", "cx"]⟩,
   ⟨"fY", "Y", ["cy", "cy", "cy", "cy", "cy", "cy"]⟩]

/-- C3 counterexample: sample `sA` co-occurs only with food `X` and sample `sB`
only with food `Y`, yet the level-0 long table contains the explicit zero row
(`sA`, `Y`, 0): absent pairs ARE materialized as zero rows at level 0, so not
every level-0 row has `count > 0`. -/
theorem level0_zero_row_materialized :
    (⟨"sA", "Y", 0, 0⟩ : CountRow) ∈ level0Long c3Net ["G1"] ["G4"] c3Ont := by
  decide

/-- C3 amended: every row of the level-0 long table carries `level = 0`, and
its count is strictly positive exactly when its (sample filename, leaf name)
pair actually co-occurs in a selected cluster; the remaining rows of the
materialized cross product are explicit zero rows. -/
theorem level0_counts_iff_cooccur (net : List NetworkRow)
    (sample_groups reference_groups : List String) (ont : List OntRow)
    (r : CountRow) (hr : r ∈ level0Long net sample_groups reference_groups ont) :
    r.level = 0 ∧
      (0 < r.count ↔ (r.filename, r.food_type) ∈
        mergedPairs net sample_groups reference_groups ont) := by
  simp only [level0Long, List.mem_flatMap, List.mem_map] at hr
  obtain ⟨fd, hfd, f, hf, rfl⟩ := hr
  refine ⟨rfl, ?_⟩
  simp only [pairCount, List.countP_pos_iff, Bool.and_eq_true, beq_iff_eq]
  constructor
  · rintro ⟨⟨pf, pfd⟩, hp, h1, h2⟩
    simp only at h1 h2
    rwa [← h1, ← h2]
  · intro h
    exact ⟨(f, fd), h, rfl, rfl⟩

/-- C3 amended witness at the concrete counterexample input. -/
theorem level0_counts_iff_cooccur_witness :
    (⟨"sA", "X", 1, 0⟩ : CountRow).level = 0 ∧
      (0 < (⟨"sA", "X", 1, 0⟩ : CountRow).count ↔
        (("sA", "X") : String × String) ∈ mergedPairs c3Net ["G1"] ["G4"] c3Ont) :=
  level0_counts_iff_cooccur c3Net ["G1"] ["G4"] c3Ont ⟨"sA", "X", 1, 0⟩ (by decide)

/-- One row of `food_counts_file_level_sample_types` in
`FoodCounts.create_food_counts_all_levels`: the merge of the level-0 long table
with the ontology store on `food_type == sample_name`, followed by
`drop_duplicates()` (which compares exactly these visible columns; the
ontology's filename index is discarded by the merge). -/
structure MergedRow where
  filename : String
  food_type : String
  count : Nat
  level : Nat
  sample_name : String
  groups : List String
deriving DecidableEq

/-- `food_counts_file_level.merge(self.sample_types, left_on="food_type",
right_on="sample_name").drop_duplicates()`. -/
def countsWithTypes (fc : List CountRow) (ont : List OntRow) : List MergedRow :=
  pdDropDup (fc.flatMap (fun c =>
    (ont.filter (fun o => o.sample_name == c.food_type)).map
      (fun o => ⟨c.filename, c.food_type, c.count, c.level, o.sample_name, o.groups⟩)))

/-- The `sample_type_group{level}` value of a merged row. -/
def groupAt (m : MergedRow) (level : Nat) : String :=
  m.groups.getD (level - 1) ""

/-- One cell of `groupby(["filename", f"sample_type_group{level}"])["count"].sum()`
(also one cell of the zero-filled wide pivot). -/
def levelSum (mts : List MergedRow) (f cat : String) (level : Nat) : Nat :=
  ((mts.filter (fun m => m.filename == f && groupAt m level == cat)).map (·.count)).sum

/-- The row index of the wide pivot at a level: the observed filenames. -/
def levelFilenames (mts : List MergedRow) : List String :=
  pdDropDup (mts.map (·.filename))

/-- The columns of the wide pivot at a level: the observed ancestor
categories. -/
def levelCats (mts : List MergedRow) (level : Nat) : List String :=
  pdDropDup (mts.map (fun m => groupAt m level))

/-- `water_counts`: the blank/control signal of one sample row at a level. -/
def waterCount (mts : List MergedRow) (f : String) (level : Nat) : Nat :=
  levelSum mts f "water" level

/-- One cell of the wide matrix after the noise-floor suppression of
`create_food_counts_all_levels`: when a `"water"` column exists at the level,
the cell keeps its count only if it strictly exceeds the same row's water
count (`.where(.gt(water_counts, axis=0), 0)`); otherwise the cell is
untouched. -/
def suppressedCell (mts : List MergedRow) (f cat : String) (level : Nat) : Nat :=
  if "water" ∈ levelCats mts level then
    if waterCount mts f level < levelSum mts f cat level then levelSum mts f cat level
    else 0
  else levelSum mts f cat level

/-- The columns surviving a level: `"water"` is dropped after the comparison,
then every column that is all-zero across the samples is dropped. -/
def keptCats (mts : List MergedRow) (level : Nat) : List String :=
  ((levelCats mts level).filter (fun c => decide (c ≠ "water"))).filter
    (fun c => (levelFilenames mts).any (fun f => decide (suppressedCell mts f c level ≠ 0)))

/-- The level-`level` block of the long table: the suppressed wide matrix
melted back to long form and tagged with the level. -/
def levelLong (mts : List MergedRow) (level : Nat) : List CountRow :=
  (keptCats mts level).flatMap (fun c =>
    (levelFilenames mts).map (fun f => ⟨f, c, suppressedCell mts f c level, level⟩))

/-- One row of the assembled output of `create_food_counts_all_levels`, with
the attached `group` column (`None` when the filename is unmapped). -/
structure CountRowG where
  filename : String
  food_type : String
  count : Nat
  level : Nat
  group : Option String
deriving DecidableEq

/-- `sample_metadata.set_index("filename")["group"].to_dict()` applied to one
filename: the last (group, filename) row wins for duplicated filenames, absent
filenames map to `None`. -/
def metaMap (smeta : List (String × String)) (f : String) : Option String :=
  (smeta.reverse.find? (fun p => p.2 == f)).map Prod.fst

/-- `food_counts_all_levels["group"] = ...map(sample_metadata_map)` for one row. -/
def attachGroup (smeta : List (String × String)) (r : CountRow) : CountRowG :=
  ⟨r.filename, r.food_type, r.count, r.level, metaMap smeta r.filename⟩

/-- `FoodCounts.create_food_counts_all_levels`: the level-0 long table followed
by the rollup blocks for levels `1..levels`, with the group column attached. -/
def createFoodCountsAllLevels (fc0 : List CountRow) (ont : List OntRow)
    (smeta : List (String × String)) (levels : Nat) : List CountRowG :=
  let mts := countsWithTypes fc0 ont
  (fc0 ++ (List.range levels).flatMap (fun i => levelLong mts (i + 1))).map
    (attachGroup smeta)

/-- C2: Noise-floor suppression at every rollup level `L` in `1..levels`.
Every level-`L` row of the assembled output has a non-water category; when a
`"water"` column exists in the level-`L` wide matrix, the row's count is the
pre-suppression cell if it strictly exceeds that sample's water count and 0
otherwise — hence every nonzero level-`L` count strictly exceeds that sample's
water count; when no `"water"` column exists at the level, the count is the
unmodified pre-suppression cell. -/
theorem noise_floor_suppression (fc0 : List CountRow) (ont : List OntRow)
    (smeta : List (String × String)) (levels : Nat)
    (h0 : ∀ r ∈ fc0, r.level = 0) (L : Nat) (hL : 1 ≤ L) (hLle : L ≤ levels)
    (r : CountRowG) (hr : r ∈ createFoodCountsAllLevels fc0 ont smeta levels)
    (hlvl : r.level = L) :
    r.food_type ≠ "water" ∧
      ("water" ∈ levelCats (countsWithTypes fc0 ont) L →
        (r.count = if waterCount (countsWithTypes fc0 ont) r.filename L <
              levelSum (countsWithTypes fc0 ont) r.filename r.food_type L
            then levelSum (countsWithTypes fc0 ont) r.filename r.food_type L else 0) ∧
        (0 < r.count → waterCount (countsWithTypes fc0 ont) r.filename L < r.count)) ∧
      ("water" ∉ levelCats (countsWithTypes fc0 ont) L →
        r.count = levelSum (countsWithTypes fc0 ont) r.filename r.food_type L) := by
  simp only [createFoodCountsAllLevels, List.mem_map, List.mem_append, List.mem_flatMap,
    List.mem_range] at hr
  obtain ⟨r₀, hr₀, rfl⟩ := hr
  rcases hr₀ with h | ⟨i, _hi, hmem⟩
  · exfalso
    have hz := h0 r₀ h
    simp only [attachGroup, hz] at hlvl
    omega
  · simp only [levelLong, List.mem_flatMap, List.mem_map] at hmem
    obtain ⟨c, hc, f, _hf, rfl⟩ := hmem
    have hLeq : i + 1 = L := by simpa [attachGroup] using hlvl
    subst hLeq
    have hcne : c ≠ "water" := by
      simp only [keptCats, List.mem_filter, decide_eq_true_eq] at hc
      exact hc.1.2
    refine ⟨hcne, fun hw => ?_, fun hnw => ?_⟩
    · constructor
      · simp [attachGroup, suppressedCell, if_pos hw]
      · intro hpos
        simp only [attachGroup, suppressedCell, if_pos hw] at hpos ⊢
        by_cases hlt : waterCount (countsWithTypes fc0 ont) f (i + 1) <
            levelSum (countsWithTypes fc0 ont) f c (i + 1)
        · simpa [if_pos hlt] using hlt
        · simp [if_neg hlt] at hpos
    · simp [attachGroup, suppressedCell, if_neg hnw]

/-- Level-0 long table for the C2 witness: sample `s` with `apple` count 3 and
`water` count 2. -/
def c2Fc0 : List CountRow := [⟨"s", "apple", 3, 0⟩, ⟨"s", "water", 2, 0⟩]

/-- Ontology for the C2 witness. -/
def c2Ont : List OntRow :=
  [⟨"fa", "apple", ["fruit", "f2", "f3", "f4", "f5", "f6"]⟩,
   ⟨"fw", "water", ["water", "water", "water", "water", "water", "water"]⟩]

/-- Sample metadata for the C2 witness. -/
def c2Smeta : List (String × String) := [("G1", "s")]

/-- C2 witness: the suppression property applied at a concrete one-sample
input whose `apple` count 3 strictly exceeds its water count 2 at level 1. -/
theorem noise_floor_suppression_witness :
    (⟨"s", "fruit", 3, 1, some "G1"⟩ : CountRowG).food_type ≠ "water" ∧
      ("water" ∈ levelCats (countsWithTypes c2Fc0 c2Ont) 1 →
        ((⟨"s", "fruit", 3, 1, some "G1"⟩ : CountRowG).count =
          if waterCount (countsWithTypes c2Fc0 c2Ont) "s" 1 <
              levelSum (countsWithTypes c2Fc0 c2Ont) "s" "fruit" 1
            then levelSum (countsWithTypes c2Fc0 c2Ont) "s" "fruit" 1 else 0) ∧
        (0 < (⟨"s", "fruit", 3, 1, some "G1"⟩ : CountRowG).count →
          waterCount (countsWithTypes c2Fc0 c2Ont) "s" 1 <
            (⟨"s", "fruit", 3, 1, some "G1"⟩ : CountRowG).count)) ∧
      ("water" ∉ levelCats (countsWithTypes c2Fc0 c2Ont) 1 →
        (⟨"s", "fruit", 3, 1, some "G1"⟩ : CountRowG).count =
          levelSum (countsWithTypes c2Fc0 c2Ont) "s" "fruit" 1) :=
  noise_floor_suppression c2Fc0 c2Ont c2Smeta 1 (by decide) 1 (by decide) (by decide)
    ⟨"s", "fruit", 3, 1, some "G1"⟩ (by decide) rfl

/-- Per-sample total of the long table at a level (sum of the `count` column of
the rows with the given `filename` and `level`). -/
def sampleLevelSum (rows : List CountRow) (f : String) (lvl : Nat) : Nat :=
  ((rows.filter (fun r => r.filename == f && r.level == lvl)).map (·.count)).sum

/-- Per-sample total of the assembled (group-attached) long table at a level. -/
def sampleLevelSumG (rows : List CountRowG) (f : String) (lvl : Nat) : Nat :=
  ((rows.filter (fun r => r.filename == f && r.level == lvl)).map (·.count)).sum

/-- Per-sample total of the ontology-merged level-0 table (the mass every
rollup level redistributes). -/
def mergedTotal (mts : List MergedRow) (f : String) : Nat :=
  ((mts.filter (fun m => m.filename == f)).map (·.count)).sum

/-- Per-sample total of a level's wide matrix before the noise-floor
suppression (the sum over the pivot's columns of the grouped count sums). -/
def preSuppressionSum (mts : List MergedRow) (f : String) (level : Nat) : Nat :=
  ((levelCats mts level).map (fun c => levelSum mts f c level)).sum

theorem sublist_sum_le {l₁ l₂ : List Nat} (h : l₁.Sublist l₂) : l₁.sum ≤ l₂.sum :=
  h.sum_le_sum (fun _ _ => Nat.zero_le _)

theorem nodup_sum_ite (cats : List String) (hn : cats.Nodup) (x : String)
    (hx : x ∈ cats) (v : Nat) :
    (cats.map (fun c => if x = c then v else 0)).sum = v := by
  induction cats with
  | nil => cases hx
  | cons a l ih =>
    rcases List.nodup_cons.mp hn with ⟨ha, hl⟩
    rcases List.mem_cons.mp hx with rfl | hx'
    · have hz : ∀ y ∈ l.map (fun c => if x = c then v else 0), y = 0 := by
        intro y hy
        obtain ⟨c, hc, rfl⟩ := List.mem_map.mp hy
        have : x ≠ c := fun he => ha (he ▸ hc)
        simp [this]
      simp [List.sum_eq_zero hz]
    · have hxa : x ≠ a := fun he => ha (he ▸ hx')
      simp [hxa, ih hl hx']

/-- Splitting off the head of the merged table in a grouped level sum. -/
theorem levelSum_cons (m : MergedRow) (mts : List MergedRow) (f c : String) (L : Nat) :
    levelSum (m :: mts) f c L =
      (if m.filename = f ∧ groupAt m L = c then m.count else 0) + levelSum mts f c L := by
  by_cases h : m.filename = f ∧ groupAt m L = c
  · simp [levelSum, List.filter_cons, h.1, h.2]
  · have : (m.filename == f && (groupAt m L == c)) = false := by
      rcases not_and_or.mp h with h1 | h1 <;> simp [h1]
    simp only [levelSum, List.filter_cons, this, if_neg h]
    simp

/-- Partition: summing the grouped level sums over any duplicate-free list of
categories that covers the sample's rows recovers the sample's merged total. -/
theorem sum_levelSum_partition (mts : List MergedRow) (f : String) (L : Nat)
    (cats : List String) (hn : cats.Nodup)
    (hc : ∀ m ∈ mts, m.filename = f → groupAt m L ∈ cats) :
    (cats.map (fun c => levelSum mts f c L)).sum = mergedTotal mts f := by
  induction mts with
  | nil =>
    have hz : ∀ y ∈ cats.map (fun c => levelSum [] f c L), y = 0 := by
      intro y hy
      obtain ⟨c, _, rfl⟩ := List.mem_map.mp hy
      rfl
    simp [mergedTotal, List.sum_eq_zero hz]
  | cons m mts ih =>
    have hrw : cats.map (fun c => levelSum (m :: mts) f c L) =
        cats.map (fun c =>
          (if m.filename = f ∧ groupAt m L = c then m.count else 0) + levelSum mts f c L) :=
      List.map_eq_map_iff.mpr (fun c _ => levelSum_cons m mts f c L)
    rw [hrw, List.sum_map_add]
    have ih' := ih (fun m' hm' => hc m' (List.mem_cons_of_mem _ hm'))
    by_cases hf : m.filename = f
    · have hx : groupAt m L ∈ cats := hc m (List.mem_cons_self _ _) hf
      have hind : (cats.map (fun c =>
          if m.filename = f ∧ groupAt m L = c then m.count else 0)).sum = m.count := by
        have : (cats.map (fun c => if m.filename = f ∧ groupAt m L = c then m.count else 0)) =
            (cats.map (fun c => if groupAt m L = c then m.count else 0)) :=
          List.map_eq_map_iff.mpr (fun c _ => by simp [hf])
        rw [this, nodup_sum_ite cats hn _ hx]
      rw [hind, ih']
      simp [mergedTotal, List.filter_cons, hf]
    · have hind : (cats.map (fun c =>
          if m.filename = f ∧ groupAt m L = c then m.count else 0)).sum = 0 := by
        refine List.sum_eq_zero ?_
        intro y hy
        obtain ⟨c, _, rfl⟩ := List.mem_map.mp hy
        simp [hf]
      rw [hind, ih']
      have : (m.filename == f) = false := by simp [hf]
      simp [mergedTotal, List.filter_cons, this]

/-- At every level, the pre-suppression per-sample total equals the merged
level-0 total: grouping only redistributes mass. -/
theorem preSuppressionSum_eq_mergedTotal (mts : List MergedRow) (f : String) (L : Nat) :
    preSuppressionSum mts f L = mergedTotal mts f :=
  sum_levelSum_partition mts f L (levelCats mts L) (pdDropDup_nodup _)
    (fun m hm _ => (mem_pdDropDup _ _).mpr (List.mem_map.mpr ⟨m, hm, rfl⟩))

theorem sampleLevelSumG_map_attach (xs : List CountRow) (smeta : List (String × String))
    (f : String) (L : Nat) :
    sampleLevelSumG (xs.map (attachGroup smeta)) f L = sampleLevelSum xs f L := by
  unfold sampleLevelSumG sampleLevelSum
  rw [List.filter_map, List.map_map]
  rfl

theorem sampleLevelSum_append (xs ys : List CountRow) (f : String) (L : Nat) :
    sampleLevelSum (xs ++ ys) f L = sampleLevelSum xs f L + sampleLevelSum ys f L := by
  simp [sampleLevelSum, List.filter_append]

theorem sampleLevelSum_flatMap {α : Type} (l : List α) (g : α → List CountRow)
    (f : String) (L : Nat) :
    sampleLevelSum (l.flatMap g) f L = (l.map (fun a => sampleLevelSum (g a) f L)).sum := by
  induction l with
  | nil => rfl
  | cons a l ih => simp [List.flatMap_cons, sampleLevelSum_append, ih]

theorem sampleLevelSum_eq_zero (xs : List CountRow) (f : String) (L : Nat)
    (h : ∀ r ∈ xs, r.level ≠ L) : sampleLevelSum xs f L = 0 := by
  have : xs.filter (fun r => r.filename == f && r.level == L) = [] := by
    rw [List.filter_eq_nil_iff]
    intro r hr
    simp [h r hr]
  simp [sampleLevelSum, this]

theorem levelLong_levels (mts : List MergedRow) (L : Nat) :
    ∀ r ∈ levelLong mts L, r.level = L := by
  intro r hr
  simp only [levelLong, List.mem_flatMap, List.mem_map] at hr
  obtain ⟨c, _, f, _, rfl⟩ := hr
  rfl

theorem sampleLevelSum_block (fs : List String) (hn : fs.Nodup) (f c : String) (L : Nat)
    (cell : String → Nat) :
    sampleLevelSum (fs.map (fun f' => ⟨f', c, cell f', L⟩)) f L =
      if f ∈ fs then cell f else 0 := by
  induction fs with
  | nil => simp [sampleLevelSum]
  | cons a fs ih =>
    rcases List.nodup_cons.mp hn with ⟨ha, hfs⟩
    have step : sampleLevelSum ((⟨a, c, cell a, L⟩ : CountRow) ::
        fs.map (fun f' => ⟨f', c, cell f', L⟩)) f L =
        (if a = f then cell a else 0) +
          sampleLevelSum (fs.map (fun f' => ⟨f', c, cell f', L⟩)) f L := by
      by_cases haf : a = f
      · simp [sampleLevelSum, List.filter_cons, haf]
      · have hb : (a == f) = false := by simp [haf]
        simp [sampleLevelSum, List.filter_cons, hb, haf]
    rw [List.map_cons, step, ih hfs]
    by_cases haf : a = f
    · subst haf
      have hnotin : a ∉ fs := ha
      rw [if_pos rfl, if_neg hnotin, Nat.add_zero, if_pos (List.mem_cons_self _ _)]
    · rw [if_neg haf, Nat.zero_add]
      by_cases hfl : f ∈ fs
      · rw [if_pos hfl, if_pos (List.mem_cons_of_mem _ hfl)]
      · rw [if_neg hfl, if_neg ?_]
        intro hc
        rcases List.mem_cons.mp hc with rfl | hc'
        · exact haf rfl
        · exact hfl hc'

theorem sampleLevelSum_inner_le (mts : List MergedRow) (c f : String) (L : Nat) :
    sampleLevelSum ((levelFilenames mts).map
        (fun f' => (⟨f', c, suppressedCell mts f' c L, L⟩ : CountRow))) f L ≤
      suppressedCell mts f c L := by
  rw [sampleLevelSum_block (levelFilenames mts) (pdDropDup_nodup _) f c L
    (fun f' => suppressedCell mts f' c L)]
  split
  · exact le_rfl
  · exact Nat.zero_le _

theorem keptCats_sublist (mts : List MergedRow) (L : Nat) :
    (keptCats mts L).Sublist (levelCats mts L) :=
  ((levelCats mts L).filter _).filter_sublist.trans (List.filter_sublist _)

theorem suppressedCell_le_levelSum (mts : List MergedRow) (f c : String) (L : Nat) :
    suppressedCell mts f c L ≤ levelSum mts f c L := by
  unfold suppressedCell
  split
  · split
    · exact le_rfl
    · exact Nat.zero_le _
  · exact le_rfl

/-- The per-sample total of a level's suppressed long block is at most the
level's pre-suppression total. -/
theorem sampleLevelSum_levelLong_le (mts : List MergedRow) (f : String) (L : Nat) :
    sampleLevelSum (levelLong mts L) f L ≤ preSuppressionSum mts f L := by
  unfold levelLong
  rw [sampleLevelSum_flatMap]
  calc ((keptCats mts L).map (fun c => sampleLevelSum ((levelFilenames mts).map
          (fun f' => (⟨f', c, suppressedCell mts f' c L, L⟩ : CountRow))) f L)).sum
      ≤ ((keptCats mts L).map (fun c => suppressedCell mts f c L)).sum :=
        List.sum_le_sum (fun c _ => sampleLevelSum_inner_le mts c f L)
    _ ≤ ((keptCats mts L).map (fun c => levelSum mts f c L)).sum :=
        List.sum_le_sum (fun c _ => suppressedCell_le_levelSum mts f c L)
    _ ≤ ((levelCats mts L).map (fun c => levelSum mts f c L)).sum :=
        sublist_sum_le ((keptCats_sublist mts L).map _)
    _ = preSuppressionSum mts f L := rfl

theorem filter_sample_name_len_le_one (ont : List OntRow)
    (hkey : (ont.map (·.sample_name)).Nodup) (x : String) :
    (ont.filter (fun o => o.sample_name == x)).length ≤ 1 := by
  induction ont with
  | nil => simp
  | cons o l ih =>
    rw [List.map_cons, List.nodup_cons] at hkey
    rw [List.filter_cons]
    by_cases hx : o.sample_name = x
    · have hnil : l.filter (fun o' => o'.sample_name == x) = [] := by
        rw [List.filter_eq_nil_iff]
        intro o' ho' hbeq
        have : o'.sample_name = x := by simpa using hbeq
        exact hkey.1 (List.mem_map.mpr ⟨o', ho', by rw [this, hx]⟩)
      simp [hx, hnil]
    · have : (o.sample_name == x) = false := by simp [hx]
      simpa [this] using ih hkey.2

theorem mergedTotal_append (xs ys : List MergedRow) (f : String) :
    mergedTotal (xs ++ ys) f = mergedTotal xs f + mergedTotal ys f := by
  simp [mergedTotal, List.filter_append]

theorem mergedTotal_flatMap {α : Type} (l : List α) (g : α → List MergedRow) (f : String) :
    mergedTotal (l.flatMap g) f = (l.map (fun a => mergedTotal (g a) f)).sum := by
  induction l with
  | nil => rfl
  | cons a l ih => simp [List.flatMap_cons, mergedTotal_append, ih]

theorem mergedTotal_sublist {xs ys : List MergedRow} (h : xs.Sublist ys) (f : String) :
    mergedTotal xs f ≤ mergedTotal ys f :=
  sublist_sum_le (((h.filter _).map _))

theorem sampleLevelSum_zero_eq_map (fc0 : List CountRow) (f : String)
    (h0 : ∀ r ∈ fc0, r.level = 0) :
    sampleLevelSum fc0 f 0 =
      (fc0.map (fun c => if c.filename = f then c.count else 0)).sum := by
  induction fc0 with
  | nil => rfl
  | cons c l ihl =>
    have hc0 : c.level = 0 := h0 c (List.mem_cons_self _ _)
    have ihl' := ihl (fun r hr => h0 r (List.mem_cons_of_mem _ hr))
    by_cases hf : c.filename = f
    · simp only [sampleLevelSum, List.filter_cons] at ihl' ⊢
      simp only [List.map_cons, List.sum_cons]
      simp [hf, hc0, ihl']
    · have hb : (c.filename == f) = false := by simp [hf]
      simp only [sampleLevelSum, List.filter_cons] at ihl' ⊢
      simp only [List.map_cons, List.sum_cons]
      simp [hb, hf, ihl']

theorem mergedTotal_const_block (c : CountRow) (os : List OntRow) (f : String) :
    mergedTotal (os.map (fun o =>
        (⟨c.filename, c.food_type, c.count, c.level, o.sample_name, o.groups⟩ : MergedRow))) f =
      if c.filename = f then os.length * c.count else 0 := by
  induction os with
  | nil => simp [mergedTotal]
  | cons o os ih =>
    by_cases hf : c.filename = f
    · simp only [mergedTotal, List.map_cons, List.filter_cons, hf, beq_self_eq_true,
        if_true, List.sum_cons, List.length_cons, if_pos hf] at ih ⊢
      rw [ih, Nat.succ_mul]
      omega
    · have hb : (c.filename == f) = false := by simp [hf]
      simp only [mergedTotal, List.map_cons, List.filter_cons, hb, Bool.false_eq_true,
        if_false, if_neg hf] at ih ⊢
      exact ih

/-- The merged level-0 mass of a sample never exceeds its level-0 total, as
long as no two ontology rows share a `sample_name`. -/
theorem mergedTotal_le_level0 (fc0 : List CountRow) (ont : List OntRow) (f : String)
    (hkey : (ont.map (·.sample_name)).Nodup) (h0 : ∀ r ∈ fc0, r.level = 0) :
    mergedTotal (countsWithTypes fc0 ont) f ≤ sampleLevelSum fc0 f 0 := by
  have hsub := mergedTotal_sublist (pdDropDup_sublist
    (fc0.flatMap (fun c => (ont.filter (fun o => o.sample_name == c.food_type)).map
      (fun o => (⟨c.filename, c.food_type, c.count, c.level, o.sample_name, o.groups⟩ :
        MergedRow))))) f
  refine le_trans hsub ?_
  rw [mergedTotal_flatMap]
  have hbound : ∀ c ∈ fc0,
      mergedTotal ((ont.filter (fun o => o.sample_name == c.food_type)).map
        (fun o => (⟨c.filename, c.food_type, c.count, c.level, o.sample_name, o.groups⟩ :
          MergedRow))) f ≤ (if c.filename = f then c.count else 0) := by
    intro c _
    rw [mergedTotal_const_block c _ f]
    by_cases hf : c.filename = f
    · rw [if_pos hf, if_pos hf]
      calc (ont.filter (fun o => o.sample_name == c.food_type)).length * c.count
          ≤ 1 * c.count :=
            Nat.mul_le_mul_right _ (filter_sample_name_len_le_one ont hkey c.food_type)
        _ = c.count := Nat.one_mul _
    · rw [if_neg hf, if_neg hf]
  refine le_trans (List.sum_le_sum hbound) ?_
  rw [sampleLevelSum_zero_eq_map fc0 f h0]

/-- Indicator sum over `range n`: at most one index satisfies `i + 1 = L`. -/
theorem sum_range_indicator (n L : Nat) (hL : 1 ≤ L) (B : Nat) :
    ((List.range n).map (fun i => if i + 1 = L then B else 0)).sum =
      if L ≤ n then B else 0 := by
  induction n with
  | zero =>
    have : ¬(L ≤ 0) := by omega
    simp [this]
  | succ n ih =>
    rw [List.range_succ, List.map_append, List.sum_append, ih]
    by_cases h1 : L ≤ n
    · have h2 : ¬(n + 1 = L) := by omega
      have h3 : L ≤ n + 1 := by omega
      simp [h1, h2, h3]
    · by_cases h2 : n + 1 = L
      · have h3 : L ≤ n + 1 := by omega
        simp [h1, h2, h3]
      · have h3 : ¬(L ≤ n + 1) := by omega
        simp [h1, h2, h3]

/-- Level-0 table for the C4 counterexample: one sample row with count 1. -/
def c4Fc0 : List CountRow := [⟨"s", "apple", 1, 0⟩]

/-- Ontology for the C4 counterexample: two rows share the leaf name `apple`
but carry different ancestor chains, so the merge duplicates the count mass. -/
def c4Ont : List OntRow :=
  [⟨"f1", "apple", ["fruit", "a2", "a3", "a4", "a5", "a6"]⟩,
   ⟨"f2", "apple", ["veg", "b2", "b3", "b4", "b5", "b6"]⟩]

/-- C4 counterexample: with an ontology in which the leaf name `apple` occurs
with two different ancestor chains, sample `s` has level-0 total 1 but level-1
total 2 after suppression (no water is present, so nothing is suppressed):
the rollup creates count mass, refuting the claimed monotonicity. -/
theorem rollup_mass_created :
    ¬(sampleLevelSumG (createFoodCountsAllLevels c4Fc0 c4Ont [] 1) "s" 1 ≤
        sampleLevelSum c4Fc0 "s" 0) := by
  decide

/-- C4 amended: provided no two ontology rows share a `sample_name` (each leaf
name maps to a unique ancestor chain), the rollup is monotone: for every level
`L ≥ 1` and every sample, the per-sample level-`L` total after suppression is
at most the per-sample total of the level below before suppression (the
level-0 total for `L = 1`, the pre-suppression level-`(L-1)` total
otherwise). -/
theorem rollup_monotonic (fc0 : List CountRow) (ont : List OntRow)
    (smeta : List (String × String)) (levels : Nat)
    (hkey : (ont.map (·.sample_name)).Nodup) (h0 : ∀ r ∈ fc0, r.level = 0)
    (L : Nat) (hL : 1 ≤ L) (f : String) :
    sampleLevelSumG (createFoodCountsAllLevels fc0 ont smeta levels) f L ≤
      if L = 1 then sampleLevelSum fc0 f 0
      else preSuppressionSum (countsWithTypes fc0 ont) f (L - 1) := by
  have h1 : sampleLevelSumG (createFoodCountsAllLevels fc0 ont smeta levels) f L =
      sampleLevelSum (fc0 ++ (List.range levels).flatMap
        (fun i => levelLong (countsWithTypes fc0 ont) (i + 1))) f L := by
    simp only [createFoodCountsAllLevels]
    exact sampleLevelSumG_map_attach _ smeta f L
  rw [h1, sampleLevelSum_append]
  have h2 : sampleLevelSum fc0 f L = 0 :=
    sampleLevelSum_eq_zero fc0 f L (fun r hr => by have := h0 r hr; omega)
  rw [h2, Nat.zero_add, sampleLevelSum_flatMap]
  have h3 : (List.range levels).map
      (fun i => sampleLevelSum (levelLong (countsWithTypes fc0 ont) (i + 1)) f L) =
      (List.range levels).map (fun i => if i + 1 = L then
        sampleLevelSum (levelLong (countsWithTypes fc0 ont) L) f L else 0) := by
    refine List.map_eq_map_iff.mpr (fun i _ => ?_)
    by_cases hi : i + 1 = L
    · rw [hi]
      simp
    · rw [if_neg hi]
      exact sampleLevelSum_eq_zero _ f L (fun r hr => by
        rw [levelLong_levels (countsWithTypes fc0 ont) (i + 1) r hr]; exact hi)
  rw [h3, sum_range_indicator levels L hL]
  have h4 : sampleLevelSum (levelLong (countsWithTypes fc0 ont) L) f L ≤
      mergedTotal (countsWithTypes fc0 ont) f :=
    le_trans (sampleLevelSum_levelLong_le (countsWithTypes fc0 ont) f L)
      (le_of_eq (preSuppressionSum_eq_mergedTotal (countsWithTypes fc0 ont) f L))
  have h5 : mergedTotal (countsWithTypes fc0 ont) f ≤
      if L = 1 then sampleLevelSum fc0 f 0
      else preSuppressionSum (countsWithTypes fc0 ont) f (L - 1) := by
    by_cases hL1 : L = 1
    · rw [if_pos hL1]
      exact mergedTotal_le_level0 fc0 ont f hkey h0
    · rw [if_neg hL1]
      exact le_of_eq (preSuppressionSum_eq_mergedTotal (countsWithTypes fc0 ont) f (L - 1)).symm
  by_cases hle : L ≤ levels
  · rw [if_pos hle]
    exact le_trans h4 h5
  · rw [if_neg hle]
    exact Nat.zero_le _

/-- C4 amended witness at a concrete input with a key-like ontology. -/
theorem rollup_monotonic_witness :
    sampleLevelSumG (createFoodCountsAllLevels c2Fc0 c2Ont c2Smeta 1) "s" 1 ≤
      if 1 = 1 then sampleLevelSum c2Fc0 "s" 0
      else preSuppressionSum (countsWithTypes c2Fc0 c2Ont) "s" (1 - 1) :=
  rollup_monotonic c2Fc0 c2Ont c2Smeta 1 (by decide) (by decide) 1 (by decide) "s"

/-- `groups_excluded = list(groups - set(self.groups_included))` in
`FoodFlows.generate_foodflows`. -/
def ffGroupsExcluded (groups_included : List String) : List String :=
  allGroups.filter (fun x => decide (x ∉ groups_included))

/-- `df_selected` of `FoodFlows.generate_foodflows`:
`(df[groups_included] > 0).all(axis=1) & (df[groups_excluded] == 0).all(axis=1)`. -/
def ffSelected (net : List NetworkRow) (groups_included : List String) : List NetworkRow :=
  net.filter (fun r =>
    groups_included.all (fun x => decide (0 < r.g x)) &&
      (ffGroupsExcluded groups_included).all (fun x => decide (r.g x = 0)))

/-- `sample_types_selected` of `FoodFlows.generate_foodflows`: explode the
selected rows' `UniqueFileSources`, look each filename up in the ontology
(`.reindex(filenames)`), drop the misses (`.dropna()`), and keep the ancestor
chain restricted to levels `1..max_hierarchy_level`. -/
def ffChains (net : List NetworkRow) (groups_included : List String)
    (ont : List OntRow) (maxLevel : Nat) : List (List String) :=
  ((ffSelected net groups_included).flatMap (·.files)).filterMap
    (fun f => (ontLookup ont f).map (fun o => o.groups.take maxLevel))

/-- `water_count = (sample_types_selected["sample_type_group1"] == "water").sum()`:
one global scalar. -/
def ffWaterCount (chains : List (List String)) : Nat :=
  chains.countP (fun ch => ch.getD 0 "" == "water")

/-- The category of a chain at the finest requested level
(`sample_type_group{max_hierarchy_level}`). -/
def ffFinest (maxLevel : Nat) (ch : List String) : String :=
  ch.getD (maxLevel - 1) ""

/-- One entry of `sample_counts = ...value_counts()` at the finest level. -/
def ffCatCount (chains : List (List String)) (maxLevel : Nat) (cat : String) : Nat :=
  chains.countP (fun ch => ffFinest maxLevel ch == cat)

/-- The rows surviving `sample_counts > water_count` filtering
(`sample_types_selected[...isin(sample_counts_valid)]`). -/
def ffRetained (chains : List (List String)) (maxLevel : Nat) : List (List String) :=
  chains.filter (fun ch =>
    decide (ffWaterCount chains < ffCatCount chains maxLevel (ffFinest maxLevel ch)))

/-- C5: Flow derivation. `FoodFlows` keeps exactly the network rows in which
every `groups_included` column is strictly positive and every other group
column is 0, and applies the water noise floor as one global scalar: a chain
survives exactly when the total transition count of its finest-level category
strictly exceeds the single water count computed once over all chains. -/
theorem foodflows_selection_and_global_threshold (net : List NetworkRow)
    (groups_included : List String) (ont : List OntRow) (maxLevel : Nat) (r : NetworkRow) :
    (r ∈ ffSelected net groups_included ↔
      r ∈ net ∧ (∀ x ∈ groups_included, 0 < r.g x) ∧
        (∀ x ∈ allGroups, x ∉ groups_included → r.g x = 0)) ∧
    (∀ ch ∈ ffRetained (ffChains net groups_included ont maxLevel) maxLevel,
        ffWaterCount (ffChains net groups_included ont maxLevel) <
          ffCatCount (ffChains net groups_included ont maxLevel) maxLevel
            (ffFinest maxLevel ch)) ∧
    (∀ ch ∈ ffChains net groups_included ont maxLevel,
        ffWaterCount (ffChains net groups_included ont maxLevel) <
          ffCatCount (ffChains net groups_included ont maxLevel) maxLevel
            (ffFinest maxLevel ch) →
          ch ∈ ffRetained (ffChains net groups_included ont maxLevel) maxLevel) := by
  refine ⟨?_, ?_, ?_⟩
  · unfold ffSelected ffGroupsExcluded
    rw [List.mem_filter]
    simp only [Bool.and_eq_true, List.all_eq_true, decide_eq_true_eq, List.mem_filter]
    constructor
    · rintro ⟨hmem, hall, hexc⟩
      exact ⟨hmem, hall, fun x hx hxn => hexc x ⟨hx, hxn⟩⟩
    · rintro ⟨hmem, hall, hexc⟩
      exact ⟨hmem, hall, fun x hx => hexc x hx.1 hx.2⟩
  · intro ch hch
    rw [ffRetained, List.mem_filter, decide_eq_true_eq] at hch
    exact hch.2
  · intro ch hch hlt
    rw [ffRetained, List.mem_filter]
    exact ⟨hch, by simpa using hlt⟩

/-- Network for the C5 witness: a single clean `G1` cluster containing two
fruit references and one water reference. -/
def ffNetW : List NetworkRow :=
  [⟨1, ["fa", "fb", "fw"], "G1", fun x => if x = "G1" then 2 else 0⟩]

/-- Ontology for the C5 witness. -/
def ffOntW : List OntRow :=
  [⟨"fa", "apple", ["fruit", "apple", "a3", "a4", "a5", "a6"]⟩,
   ⟨"fb", "pear", ["fruit", "pear", "b3", "b4", "b5", "b6"]⟩,
   ⟨"fw", "water", ["water", "water", "water", "water", "water", "water"]⟩]

/-- C5 witness: at `max_hierarchy_level = 1`, the global water count is 1 and
the `fruit` category's total count 2 strictly exceeds it, so its chains are
retained. -/
theorem foodflows_selection_witness :
    ffWaterCount (ffChains ffNetW ["G1"] ffOntW 1) <
      ffCatCount (ffChains ffNetW ["G1"] ffOntW 1) 1 (ffFinest 1 ["fruit"]) ∧
      ["fruit"] ∈ ffRetained (ffChains ffNetW ["G1"] ffOntW 1) 1 :=
  ⟨(foodflows_selection_and_global_threshold ffNetW ["G1"] ffOntW 1
      ⟨1, [], "", fun _ => 0⟩).2.1 ["fruit"] (by decide),
   (foodflows_selection_and_global_threshold ffNetW ["G1"] ffOntW 1
      ⟨1, [], "", fun _ => 0⟩).2.2 ["fruit"] (by decide) (by decide)⟩

/-- One row of the raw Global FoodOmics metadata table (before
`_load_sample_types`'s projection): filename, leaf name, ancestor chain, and
the `simple_complex` classification tag. -/
structure FoodMetaRow where
  filename : String
  sample_name : String
  groups : List String
  simple_complex : String
deriving DecidableEq

/-- `_load_sample_types` (`src/gfop/utils.py`, and the identical
`FoodFlows._load_sample_types`): if the requested tag is not `"all"`, keep the
rows whose `simple_complex` equals it; then project to
`sample_name`/`sample_type_group1..6` indexed by `filename`.  No tag value is
rejected. -/
def loadSampleTypes (gfop_metadata : List FoodMetaRow) (simple_complex : String) :
    List OntRow :=
  (if simple_complex ≠ "all" then
      gfop_metadata.filter (fun r => r.simple_complex == simple_complex)
    else gfop_metadata).map
    (fun r => ⟨r.filename, r.sample_name, r.groups⟩)

/-- Metadata for the C7 counterexample. -/
def c7Meta : List FoodMetaRow :=
  [⟨"f1", "apple", ["fruit", "a2", "a3", "a4", "a5", "a6"], "simple"⟩]

/-- C7 counterexample: loading sample types with the unrecognized tag
`"typo"` does not raise a configuration error — `_load_sample_types` simply
filters by equality with the tag and returns the empty table. -/
theorem load_sample_types_no_error :
    loadSampleTypes c7Meta "typo" = [] ∧
      loadSampleTypes c7Meta "typo" =
        (c7Meta.filter (fun r => r.simple_complex == "typo")).map
          (fun r => ⟨r.filename, r.sample_name, r.groups⟩) :=
  ⟨rfl, rfl⟩

/-- C7 amended: for `"all"` no row is filtered out; for any other value —
`"simple"`, `"complex"`, or an unrecognized one alike — exactly the rows whose
`simple_complex` tag equals the requested value are kept, so an unrecognized
value yields an empty result rather than a raised configuration error. -/
theorem load_sample_types_filters (gfop_metadata : List FoodMetaRow) (tag : String) :
    (tag = "all" → loadSampleTypes gfop_metadata tag =
      gfop_metadata.map (fun r => ⟨r.filename, r.sample_name, r.groups⟩)) ∧
    (tag ≠ "all" → loadSampleTypes gfop_metadata tag =
      (gfop_metadata.filter (fun r => r.simple_complex == tag)).map
        (fun r => ⟨r.filename, r.sample_name, r.groups⟩)) := by
  constructor
  · intro h
    simp [loadSampleTypes, h]
  · intro h
    simp [loadSampleTypes, h]

/-- C7 amended witness at the `"simple"` tag. -/
theorem load_sample_types_filters_witness :
    loadSampleTypes c7Meta "simple" =
      (c7Meta.filter (fun r => r.simple_complex == "simple")).map
        (fun r => ⟨r.filename, r.sample_name, r.groups⟩) :=
  (load_sample_types_filters c7Meta "simple").2 (by decide)

/-- `_validate_groups` (`src/gfop/utils.py`): the valid labels are the distinct
`DefaultGroups` values of the network; the raised `ValueError` names exactly
the supplied labels not among them (here the error payload is that set). -/
def validateGroups (net : List NetworkRow) (groups_included : List String) :
    Except (List String) Unit :=
  let valid := pdDropDup (net.map (·.defaultGroups))
  let invalid := pdDropDup (groups_included.filter (fun x => decide (x ∉ valid)))
  if invalid.isEmpty then Except.ok () else Except.error invalid

/-- C8: Group validation succeeds exactly when every supplied label occurs
among the network's distinct `DefaultGroups` labels, has no other effect, and
on failure the configuration error names exactly the supplied labels missing
from the network. -/
theorem validate_groups_spec (net : List NetworkRow) (groups_included : List String) :
    (validateGroups net groups_included = Except.ok () ↔
      ∀ x ∈ groups_included, x ∈ net.map (·.defaultGroups)) ∧
    (∀ e, validateGroups net groups_included = Except.error e →
      ∀ x, (x ∈ e ↔ x ∈ groups_included ∧ x ∉ net.map (·.defaultGroups))) := by
  have hmem : ∀ x, x ∈ pdDropDup (groups_included.filter
      (fun x => decide (x ∉ pdDropDup (net.map (·.defaultGroups))))) ↔
      x ∈ groups_included ∧ x ∉ net.map (·.defaultGroups) := by
    intro x
    rw [mem_pdDropDup, List.mem_filter, decide_eq_true_eq, mem_pdDropDup]
  by_cases hemp : (pdDropDup (groups_included.filter
      (fun x => decide (x ∉ pdDropDup (net.map (·.defaultGroups)))))).isEmpty
  · have hres : validateGroups net groups_included = Except.ok () := by
      unfold validateGroups
      rw [if_pos hemp]
    have hnil := List.isEmpty_iff.mp hemp
    refine ⟨⟨fun _ x hx => ?_, fun _ => hres⟩, fun e he => ?_⟩
    · by_contra hnot
      have : x ∈ ([] : List String) := hnil ▸ (hmem x).mpr ⟨hx, hnot⟩
      cases this
    · rw [hres] at he
      cases he
  · have hres : validateGroups net groups_included = Except.error
        (pdDropDup (groups_included.filter
          (fun x => decide (x ∉ pdDropDup (net.map (·.defaultGroups)))))) := by
      unfold validateGroups
      rw [if_neg hemp]
    refine ⟨⟨fun hok => ?_, fun hall => ?_⟩, fun e he x => ?_⟩
    · rw [hres] at hok
      cases hok
    · exfalso
      apply hemp
      rw [List.isEmpty_iff, List.eq_nil_iff_forall_not_mem]
      intro x hx
      exact ((hmem x).mp hx).2 (hall x ((hmem x).mp hx).1)
    · rw [hres] at he
      injection he with he
      rw [← he]
      exact hmem x

/-- Network for the C8 witness, containing only the labels G1..G6. -/
def c8Net : List NetworkRow :=
  [⟨1, [], "G1", fun _ => 0⟩, ⟨2, [], "G2", fun _ => 0⟩, ⟨3, [], "G3", fun _ => 0⟩,
   ⟨4, [], "G4", fun _ => 0⟩, ⟨5, [], "G5", fun _ => 0⟩, ⟨6, [], "G6", fun _ => 0⟩]

/-- C8 witness: `sample_groups = ["G9"]` against a network containing only
G1..G6 fails with a configuration error naming exactly `"G9"`. -/
theorem validate_groups_witness :
    validateGroups c8Net ["G9"] = Except.error ["G9"] ∧
      ("G9" ∈ (["G9"] : List String) ↔
        "G9" ∈ (["G9"] : List String) ∧ "G9" ∉ c8Net.map (·.defaultGroups)) :=
  ⟨rfl, (validate_groups_spec c8Net ["G9"]).2 ["G9"] rfl "G9"⟩

/-- The instance state mutated by `FoodCounts.update_groups`: the assembled
counts and the sample metadata ((group, filename) rows). -/
structure FCState where
  counts : List CountRowG
  sample_metadata : List (String × String)
deriving DecidableEq

/-- An external metadata table, already parsed: its column names and its rows
as per-column cell assignments. -/
structure MetaTable where
  cols : List String
  cells : List (List (String × String))
deriving DecidableEq

/-- `metadata.set_index("filename")[merge_column].to_dict()` applied to one
filename: for duplicated filenames the last row wins; filenames absent from
the table map to nothing. -/
def metaFileMap (meta : MetaTable) (merge_column f : String) : Option String :=
  (meta.cells.reverse.find? (fun row => row.lookup "filename" == some f)).bind
    (fun row => row.lookup merge_column)

/-- The non-group fields of an assembled-count row. -/
def stripGroup (r : CountRowG) : CountRow :=
  ⟨r.filename, r.food_type, r.count, r.level⟩

/-- `os.path.splitext(...)[1].lower()`: ASCII case folding of the extension,
modelled character-by-character. -/
def lowerChar (c : Char) : Char :=
  if 'A' ≤ c ∧ c ≤ 'Z' then Char.ofNat (c.toNat + 32) else c

/-- `str.lower()` on the extension string. -/
def lowerString (s : String) : String :=
  ⟨s.data.map lowerChar⟩

/-- `FoodCounts.update_groups`: dispatch on the (lowercased) file extension,
check that the metadata has the `filename` and merge columns, and only then
remap: `counts["group"] = counts["filename"].map(mapping).fillna(counts["group"])`
and the same for `sample_metadata`.  Both `raise ValueError` sites run before
any assignment, so an error leaves the state untouched. -/
def updateGroups (st : FCState) (file_extension : String) (meta : MetaTable)
    (merge_column : String) : Except String FCState :=
  let ext := lowerString file_extension
  if ext = ".csv" ∨ ext = ".tsv" ∨ ext = ".txt" then
    if "filename" ∈ meta.cols ∧ merge_column ∈ meta.cols then
      Except.ok
        { counts := st.counts.map (fun r =>
            { r with group := match metaFileMap meta merge_column r.filename with
                | some gr => some gr
                | none => r.group }),
          sample_metadata := st.sample_metadata.map (fun p =>
            ((metaFileMap meta merge_column p.2).getD p.1, p.2)) }
    else
      Except.error "Metadata file must contain the filename and merge columns."
  else
    Except.error "Metadata file must be either a CSV or TSV."

/-- C9: the external group-mapping override is atomic and frame-limited.  An
unsupported extension or a metadata table missing the `filename` or merge
column yields a configuration error and no updated state (the instance's
counts and sample metadata are unchanged); on success the rows correspond
pairwise with only the `group` value changed, and filenames absent from the
mapping retain their prior group. -/
theorem update_groups_spec (st : FCState) (file_extension : String) (meta : MetaTable)
    (merge_column : String) :
    ((∃ st', updateGroups st file_extension meta merge_column = Except.ok st') ↔
      ((lowerString file_extension = ".csv" ∨ lowerString file_extension = ".tsv" ∨
          lowerString file_extension = ".txt") ∧
        "filename" ∈ meta.cols ∧ merge_column ∈ meta.cols)) ∧
    (∀ st', updateGroups st file_extension meta merge_column = Except.ok st' →
      List.Forall₂ (fun r' r => stripGroup r' = stripGroup r ∧
          (metaFileMap meta merge_column r.filename = none → r'.group = r.group))
        st'.counts st.counts ∧
      List.Forall₂ (fun p' p => p'.2 = p.2 ∧
          (metaFileMap meta merge_column p.2 = none → p'.1 = p.1))
        st'.sample_metadata st.sample_metadata) := by
  unfold updateGroups
  by_cases hext : lowerString file_extension = ".csv" ∨ lowerString file_extension = ".tsv" ∨
      lowerString file_extension = ".txt"
  · rw [if_pos hext]
    by_cases hcols : "filename" ∈ meta.cols ∧ merge_column ∈ meta.cols
    · rw [if_pos hcols]
      refine ⟨⟨fun _ => ⟨hext, hcols⟩, fun _ => ⟨_, rfl⟩⟩, fun st' hok => ?_⟩
      cases hok
      constructor
      · rw [List.forall₂_map_left_iff, List.forall₂_same]
        intro r _
        refine ⟨rfl, fun hnone => ?_⟩
        simp [hnone]
      · rw [List.forall₂_map_left_iff, List.forall₂_same]
        intro p _
        refine ⟨rfl, fun hnone => ?_⟩
        simp [hnone]
    · rw [if_neg hcols]
      refine ⟨⟨fun h => ?_, fun h => absurd h.2 hcols⟩, fun st' h => ?_⟩
      · obtain ⟨st', hst'⟩ := h
        cases hst'
      · cases h
  · rw [if_neg hext]
    refine ⟨⟨fun h => ?_, fun h => absurd h.1 hext⟩, fun st' h => ?_⟩
    · obtain ⟨st', hst'⟩ := h
      cases hst'
    · cases h

/-- State for the C9 witness. -/
def c9St : FCState :=
  ⟨[⟨"a", "apple", 1, 0, some "G1"⟩, ⟨"b", "apple", 2, 0, some "G1"⟩],
   [("G1", "a"), ("G1", "b")]⟩

/-- Metadata table for the C9 witness: maps filename `a` to diet `H`; no row
for `b`. -/
def c9Meta : MetaTable :=
  ⟨["filename", "diet"], [[("filename", "a"), ("diet", "H")]]⟩

/-- C9 witness: on a `.csv` table with the required columns, `a`'s group is
overridden while `b` (absent from the mapping) keeps its group, and no field
other than `group` changes. -/
theorem update_groups_spec_witness :
    List.Forall₂ (fun r' r => stripGroup r' = stripGroup r ∧
        (metaFileMap c9Meta "diet" r.filename = none → r'.group = r.group))
      ((⟨[⟨"a", "apple", 1, 0, some "H"⟩, ⟨"b", "apple", 2, 0, some "G1"⟩],
        [("H", "a"), ("G1", "b")]⟩ : FCState)).counts c9St.counts ∧
    List.Forall₂ (fun p' p => p'.2 = p.2 ∧
        (metaFileMap c9Meta "diet" p.2 = none → p'.1 = p.1))
      ((⟨[⟨"a", "apple", 1, 0, some "H"⟩, ⟨"b", "apple", 2, 0, some "G1"⟩],
        [("H", "a"), ("G1", "b")]⟩ : FCState)).sample_metadata c9St.sample_metadata :=
  (update_groups_spec c9St ".csv" c9Meta "diet").2
    ⟨[⟨"a", "apple", 1, 0, some "H"⟩, ⟨"b", "apple", 2, 0, some "G1"⟩],
     [("H", "a"), ("G1", "b")]⟩ rfl

/-- `FoodCounts.filter_counts`: a plain boolean-mask filter on level and
(optionally) the food-type set; total, it cannot raise. -/
def filterCounts (counts : List CountRowG) (food_types : Option (List String))
    (level : Nat) : List CountRowG :=
  match food_types with
  | none => counts.filter (fun r => r.level == level)
  | some fts => counts.filter (fun r => decide (r.food_type ∈ fts) && r.level == level)

/-- One row of the wide pivot produced by `food_counts_to_wide`: the filename
index, one rational cell per food-type column, and the joined `group`. -/
structure WideRow where
  filename : String
  cells : List (String × ℚ)
  group : Option String
deriving DecidableEq

/-- One cell of `pivot_table(index="filename", columns="food_type",
values="count", fill_value=0)`: the default `aggfunc="mean"` of the matching
counts, 0 when no row matches. -/
def wideCell (rows : List CountRowG) (f ft : String) : ℚ :=
  let xs := rows.filter (fun r => r.filename == f && r.food_type == ft)
  if xs.isEmpty then 0
  else ((xs.map (fun r => (r.count : ℚ))).sum) / (xs.length : ℚ)

/-- The `group_df` join for one filename (first matching row after
`drop_duplicates`). -/
def wideGroup (rows : List CountRowG) (f : String) : Option String :=
  (rows.find? (fun r => r.filename == f)).bind (·.group)

/-- The body of `food_counts_to_wide` once the level is fixed: filter to the
level, raise `ValueError("No data available for level {level}")` when nothing
remains, else pivot over the observed filenames × food types. -/
def foodCountsToWideAt (food_counts : List CountRowG) (level : Nat) :
    Except String (List WideRow) :=
  let filtered := food_counts.filter (fun r => r.level == level)
  if filtered.isEmpty then
    Except.error ("No data available for level " ++ toString level)
  else
    let files := pdDropDup (filtered.map (·.filename))
    let fts := pdDropDup (filtered.map (·.food_type))
    Except.ok (files.map (fun f =>
      ⟨f, fts.map (fun ft => (ft, wideCell filtered f ft)), wideGroup filtered f⟩))

/-- `food_counts_to_wide` (`src/gfop/utils.py`): infer the level when it is
not given (raising on mixed levels, and failing on an empty table whose level
cannot be inferred), then pivot at that level. -/
def foodCountsToWide (food_counts : List CountRowG) (level : Option Nat) :
    Except String (List WideRow) :=
  match level with
  | none =>
    let lvls := pdDropDup (food_counts.map (·.level))
    if 1 < lvls.length then
      Except.error "Multiple levels found in the data. Please specify a level."
    else
      match lvls with
      | [] => Except.error "index 0 is out of bounds"
      | l :: _ => foodCountsToWideAt food_counts l
  | some l => foodCountsToWideAt food_counts l

/-- The row total of a wide row's numeric (food-type) cells. -/
def rowTotal (cells : List (String × ℚ)) : ℚ :=
  (cells.map (·.2)).sum

/-- The division step of `calculate_proportions`: each numeric cell divided by
its row total, with the `fillna(0)` that turns the 0/0 `NaN`s of an all-zero
row into proportion 0. -/
def propRow (w : WideRow) : WideRow :=
  ⟨w.filename,
   w.cells.map (fun c =>
     (c.1, if rowTotal w.cells = 0 then 0 else c.2 / rowTotal w.cells)),
   w.group⟩

/-- `calculate_proportions` (`src/gfop/utils.py`): infer the level as
`food_counts_to_wide` does, convert to wide, then normalize each row. -/
def calculateProportions (food_counts : List CountRowG) (level : Option Nat) :
    Except String (List WideRow) :=
  match level with
  | none =>
    let lvls := pdDropDup (food_counts.map (·.level))
    if 1 < lvls.length then
      Except.error "Multiple levels found in the data. Please specify a level."
    else
      match lvls with
      | [] => Except.error "index 0 is out of bounds"
      | l :: _ => (foodCountsToWide food_counts (some l)).map (List.map propRow)
  | some l => (foodCountsToWide food_counts (some l)).map (List.map propRow)

/-- Counts table for the C6 counterexample and the C10 witness: data exists
only at level 0. -/
def c6Counts : List CountRowG := [⟨"a", "apple", 1, 0, some "G1"⟩]

/-- C6 counterexample: with data only at level 0, the wide pivot at level 3
raises the `"No data available for level 3"` `ValueError` instead of
propagating an empty table. -/
theorem wide_empty_level_raises :
    foodCountsToWide c6Counts (some 3) =
      Except.error ("No data available for level " ++ toString 3) :=
  rfl

/-- C6 amended: `filter_counts` with a food-type set matching nothing returns
the empty table and cannot raise, but the wide-pivot path does not propagate
emptiness: `food_counts_to_wide` (and hence `calculate_proportions`) raises
the `"No data available for level"` `ValueError` when no rows exist at the
requested level. -/
theorem empty_result_policy (counts : List CountRowG) (fts : List String) (level : Nat) :
    ((∀ r ∈ counts, r.food_type ∉ fts) → filterCounts counts (some fts) level = []) ∧
    (counts.filter (fun r => r.level == level) = [] →
      foodCountsToWide counts (some level) =
        Except.error ("No data available for level " ++ toString level)) := by
  constructor
  · intro h
    unfold filterCounts
    rw [List.filter_eq_nil_iff]
    intro r hr
    simp [h r hr]
  · intro h
    unfold foodCountsToWide foodCountsToWideAt
    simp only [h, List.isEmpty_nil, if_true]

/-- C6 amended witness at the concrete one-row table. -/
theorem empty_result_policy_witness :
    filterCounts c6Counts (some ["nothing"]) 3 = [] ∧
      foodCountsToWide c6Counts (some 3) =
        Except.error ("No data available for level " ++ toString 3) :=
  ⟨(empty_result_policy c6Counts ["nothing"] 3).1 (by decide),
   (empty_result_policy c6Counts ["nothing"] 3).2 (by decide)⟩

/-- C10: proportions normalization.  For every counts table and single level
at which the wide pivot succeeds, `calculate_proportions` succeeds with the
row-normalized wide table, each row with nonzero total has proportions
summing to exactly 1, and each row with zero total has every proportion equal
to 0 (no division error). -/
theorem proportions_normalized (counts : List CountRowG) (level : Nat)
    (ws : List WideRow) (hok : foodCountsToWide counts (some level) = Except.ok ws) :
    calculateProportions counts (some level) = Except.ok (ws.map propRow) ∧
    ∀ w ∈ ws, (rowTotal w.cells ≠ 0 → rowTotal ((propRow w).cells) = 1) ∧
      (rowTotal w.cells = 0 → ∀ c ∈ (propRow w).cells, c.2 = 0) := by
  constructor
  · have hdef : calculateProportions counts (some level) =
        (foodCountsToWide counts (some level)).map (List.map propRow) := rfl
    rw [hdef, hok]
    rfl
  · intro w _
    constructor
    · intro hT
      have hcells : rowTotal ((propRow w).cells) =
          (w.cells.map (fun c => if rowTotal w.cells = 0 then 0
            else c.2 / rowTotal w.cells)).sum := by
        unfold propRow rowTotal
        rw [List.map_map]
        rfl
      rw [hcells]
      have hmap : w.cells.map (fun c => if rowTotal w.cells = 0 then 0
          else c.2 / rowTotal w.cells) =
          w.cells.map (fun c => c.2 * (rowTotal w.cells)⁻¹) :=
        List.map_eq_map_iff.mpr (fun c _ => by rw [if_neg hT, div_eq_mul_inv])
      rw [hmap, List.sum_map_mul_right]
      have hsum : (w.cells.map (fun c : String × ℚ => c.2)).sum = rowTotal w.cells := rfl
      rw [hsum, mul_inv_cancel₀ hT]
    · intro hT c hc
      unfold propRow at hc
      obtain ⟨c₀, _, rfl⟩ := List.mem_map.mp hc
      simp [if_pos hT]

/-- The level-0 slice of the C10 witness table. -/
def c10Filtered : List CountRowG := c6Counts.filter (fun r => r.level == 0)

/-- The expected wide pivot of the C10 witness table at level 0. -/
def c10Ws : List WideRow :=
  [⟨"a", [("apple", wideCell c10Filtered "a" "apple")], wideGroup c10Filtered "a"⟩]

/-- C10 witness: at level 0 the pivot of the one-row table succeeds, and the
normalization facts hold for its rows. -/
theorem proportions_normalized_witness :
    calculateProportions c6Counts (some 0) = Except.ok (c10Ws.map propRow) ∧
    ∀ w ∈ c10Ws,
      (rowTotal w.cells ≠ 0 → rowTotal ((propRow w).cells) = 1) ∧
      (rowTotal w.cells = 0 → ∀ c ∈ (propRow w).cells, c.2 = 0) :=
  proportions_normalized c6Counts 0 c10Ws rfl

end Gfop
